import Mathlib

/-! # MH-Z19 gas concentration codec

A shallow embedding of `mhz19.go`: the fixed request frame and its
serialisation, the 9-byte response decoder with its 8-bit checksum, and the
temperature accessor.  The pieces of the Go standard library the code calls
(`io.ReadFull`, `encoding/binary`) are embedded next to it, over explicit
byte sources and sinks.

Bytes are values of `Fin 256`; all arithmetic is done on `Nat` with the
8-bit and 16-bit wraparound written out as `% 256` and `% 65536`.
-/

namespace Mhz19

/-- A Go `byte`. -/
abbrev Byte := Fin 256

/-- Go `error` values that occur in the package and in the standard library
calls it makes.  `errorString` stands for any error built from a message
(`fmt.Errorf`, or a failure reported by a byte source or sink). -/
inductive Error where
  | EOF
  | ErrUnexpectedEOF
  | ErrShortBuffer
  | errorString (s : String)
  | ChecksumError (err : String)
  deriving DecidableEq, Repr

/-- The type test `err.(*ChecksumError)`. -/
def Error.isChecksumError : Error → Bool
  | .ChecksumError _ => true
  | _ => false

/-! ## Byte sources (`io.Reader`) -/

/-- One answer of a byte source to a `Read` call: the bytes it has available
and the error it reports with them (`none` is `nil`).  `overrun` marks an
answer that breaks the `io.Reader` contract: when it has more bytes than the
buffer holds, it still reports all of them as read. -/
structure ReadEvent where
  data : List Byte
  err : Option Error
  overrun : Bool := false
  deriving DecidableEq, Repr

/-- A byte source, given by the answers it has yet to give.  Once they are
used up the source is at end of input. -/
abbrev Reader := List ReadEvent

/-- The source that delivers the chunks `cs` one per read, without error. -/
def chunked (cs : List (List Byte)) : Reader :=
  cs.map fun c => { data := c, err := none }

/-- What one call `Read(p)` does: the count `n` it returns, the bytes it stores
at the start of `p`, the error it returns, and the source afterwards. -/
structure ReadOut where
  n : Nat
  data : List Byte
  err : Option Error
  r : Reader
  deriving DecidableEq, Repr

/-- The method `Read(p)` of a source for a buffer `p` of length `k`.  When the
source has more bytes available than fit, it stores `k` of them, reports no
error and keeps the rest for the next call; an answer marked `overrun` instead
stores `k` of them and returns the count of all of them. -/
def Reader.Read (r : Reader) (k : Nat) : ReadOut :=
  match r with
  | [] => { n := 0, data := [], err := some Error.EOF, r := [] }
  | ev :: rest =>
    if ev.data.length ≤ k then
      { n := ev.data.length, data := ev.data, err := ev.err, r := rest }
    else if ev.overrun then
      { n := ev.data.length, data := ev.data.take k, err := ev.err, r := rest }
    else
      { n := k, data := ev.data.take k, err := none,
        r := { ev with data := ev.data.drop k } :: rest }

/-- The effect of `Read(buf[n:])` on `buf`: `data` is stored from offset `n`. -/
def store (buf : List Byte) (n : Nat) (data : List Byte) : List Byte :=
  buf.take n ++ data ++ buf.drop (n + data.length)

/-- The state of `io.ReadAtLeast` when it leaves its loop. -/
structure ReadState where
  n : Nat
  err : Option Error
  buf : List Byte
  r : Reader
  deriving DecidableEq, Repr

/-- The loop `for n < min && err == nil { nn, err = r.Read(buf[n:]); n += nn }`
of `io.ReadAtLeast`.  Each iteration uses one unit of `fuel`; `none` means the
fuel ran out before the loop ended. -/
def ReadAtLeastLoop : Nat → Reader → List Byte → Nat → Nat → Option Error → Option ReadState
  | fuel, r, buf, min, n, err =>
    if n < min ∧ err = none then
      match fuel with
      | 0 => none
      | fuel + 1 =>
        let out := r.Read (buf.length - n)
        ReadAtLeastLoop fuel out.r (store buf n out.data) min (n + out.n) out.err
    else some { n := n, err := err, buf := buf, r := r }

/-- Go `io.ReadAtLeast(r, buf, min)`. -/
def ReadAtLeast (fuel : Nat) (r : Reader) (buf : List Byte) (min : Nat) : Option ReadState :=
  if buf.length < min then
    some { n := 0, err := some Error.ErrShortBuffer, buf := buf, r := r }
  else
    match ReadAtLeastLoop fuel r buf min 0 none with
    | none => none
    | some st =>
      if st.n ≥ min then some { st with err := none }
      else if st.n > 0 ∧ st.err = some Error.EOF then
        some { st with err := some Error.ErrUnexpectedEOF }
      else some st

/-- Go `io.ReadFull(r, buf)`. -/
def ReadFull (fuel : Nat) (r : Reader) (buf : List Byte) : Option ReadState :=
  ReadAtLeast fuel r buf buf.length

/-! ## Byte sinks (`io.Writer`) -/

/-- A byte sink.  `calls` lists the buffers handed to `Write` so far and
`accepted` the bytes taken from them; `script` holds the answers to the
coming calls: an answer `(n, err)` takes at most `n` bytes of the buffer and
returns the error `err` (`none` is `nil`), so `(4, none)` is a write that stops
after four bytes and reports no error.  A sink whose script is used up accepts
everything. -/
structure Writer where
  calls : List (List Byte)
  accepted : List Byte
  script : List (Nat × Option Error)
  deriving DecidableEq, Repr

/-- The method `Write(p)` of a sink: the count, the error and the sink
afterwards. -/
def Writer.Write (w : Writer) (p : List Byte) : Nat × Option Error × Writer :=
  match w.script with
  | [] => (p.length, none, { w with calls := w.calls ++ [p], accepted := w.accepted ++ p })
  | (n, err) :: rest =>
    (Nat.min n p.length, err,
      { calls := w.calls ++ [p], accepted := w.accepted ++ p.take n, script := rest })

/-! ## `encoding/binary`, big endian -/

/-- The cursor of `encoding/binary` over a buffer being decoded. -/
structure decoder where
  buf : List Byte
  offset : Nat

/-- Decode one `uint8`. -/
def decoder.uint8 (d : decoder) : Byte × decoder :=
  (d.buf.getD d.offset 0, { d with offset := d.offset + 1 })

/-- Decode one big-endian `uint16`: `uint16(b[1]) | uint16(b[0])<<8`. -/
def decoder.uint16 (d : decoder) : Nat × decoder :=
  let b0 := (d.buf.getD d.offset 0).val
  let b1 := (d.buf.getD (d.offset + 1) 0).val
  ((b1 ||| (b0 <<< 8)) % 65536, { d with offset := d.offset + 2 })

/-- Skip `n` bytes, as is done for blank (`_`) struct fields. -/
def decoder.skip (d : decoder) (n : Nat) : decoder :=
  { d with offset := d.offset + n }

/-! ## The package -/

/-- Go `GasConcentrationRequest`. -/
structure GasConcentrationRequest where
  Start : Byte
  SensorNo : Byte
  Command : Byte
  Byte3 : Byte
  Byte4 : Byte
  Byte5 : Byte
  Byte6 : Byte
  Byte7 : Byte
  Checksum : Byte
  deriving DecidableEq, Repr

/-- Go `NewGasConcentrationRequest`; the fields not named are zero. -/
def NewGasConcentrationRequest : GasConcentrationRequest :=
  { Start := 0xFF, SensorNo := 0x01, Command := 0x86,
    Byte3 := 0, Byte4 := 0, Byte5 := 0, Byte6 := 0, Byte7 := 0,
    Checksum := 0x79 }

/-- The bytes `encoding/binary` produces for a request: its nine `uint8`
fields in declaration order. -/
def GasConcentrationRequest.encode (r : GasConcentrationRequest) : List Byte :=
  [r.Start, r.SensorNo, r.Command, r.Byte3, r.Byte4, r.Byte5, r.Byte6, r.Byte7, r.Checksum]

/-- Go `(*GasConcentrationRequest).Write`, that is `binary.Write(w, binary.BigEndian, r)`:
the request is encoded into a buffer, the buffer is passed to `w.Write` and the
error of that call is returned.  The result is the error and the sink afterwards. -/
def GasConcentrationRequest.Write (r : GasConcentrationRequest) (w : Writer) :
    Option Error × Writer :=
  let out := w.Write r.encode
  (out.2.1, out.2.2)

/-- Go `GasConcentrationResponse`; the three blank fields hold nothing that
can be read back and are left out. -/
structure GasConcentrationResponse where
  Start : Byte
  Command : Byte
  Concentration : Nat
  OffsetTemperature : Byte
  Checksum : Byte
  deriving DecidableEq, Repr

/-- The zero value `var resp GasConcentrationResponse`. -/
def GasConcentrationResponse.zero : GasConcentrationResponse :=
  { Start := 0, Command := 0, Concentration := 0, OffsetTemperature := 0, Checksum := 0 }

/-- Go `(*GasConcentrationResponse).Temperature`: `int(r.OffsetTemperature) - 40`. -/
def GasConcentrationResponse.Temperature (r : GasConcentrationResponse) : Int :=
  (r.OffsetTemperature.val : Int) - 40

/-- The call `binary.Read(bytes.NewReader(buf), binary.BigEndian, &resp)` on the
zero response: when `buf` holds the nine bytes of the struct they are decoded
field by field, otherwise the read fails and `resp` is left as it was. -/
def binaryRead (buf : List Byte) : GasConcentrationResponse :=
  if buf.length < 9 then GasConcentrationResponse.zero
  else
    let d : decoder := { buf := buf, offset := 0 }
    let (start, d) := d.uint8
    let (command, d) := d.uint8
    let (concentration, d) := d.uint16
    let (offsetTemperature, d) := d.uint8
    let d := d.skip 1
    let d := d.skip 1
    let d := d.skip 1
    let (checksum, _) := d.uint8
    { Start := start, Command := command, Concentration := concentration,
      OffsetTemperature := offsetTemperature, Checksum := checksum }

/-- The checksum loop `var sum byte = 0; for i := 0; i < 8; i++ { sum += buf[i] }`
followed by `sum = 0xff - sum`, in 8-bit arithmetic. -/
def checksum (buf : List Byte) : Nat :=
  let sum := (List.range 8).foldl (fun sum i => (sum + (buf.getD i 0).val) % 256) 0
  (0xff + 256 - sum) % 256

/-- What `ReadGasConcentrationResponse` returns, with the source afterwards. -/
structure ReadResult where
  resp : Option GasConcentrationResponse
  err : Option Error
  r : Reader
  deriving DecidableEq, Repr

/-- Go `ReadGasConcentrationResponse`.  `none` means that `io.ReadFull` did not
return within `fuel` reads. -/
def ReadGasConcentrationResponse (fuel : Nat) (r : Reader) : Option ReadResult :=
  let len := 9
  let buf : List Byte := List.replicate len 0
  match ReadFull fuel r buf with
  | none => none
  | some st =>
    match st.err with
    | some err => some { resp := none, err := some err, r := st.r }
    | none =>
      if st.n ≠ len then
        some { resp := none,
               err := some (Error.errorString
                 ("too few bytes read: want=" ++ toString len ++ " got=" ++ toString st.n)),
               r := st.r }
      else
        let sum := checksum st.buf
        let resp := binaryRead st.buf
        if sum ≠ resp.Checksum.val then
          some { resp := some resp,
                 err := some (Error.ChecksumError
                   ("checksum failed: got " ++ toString sum ++ " want " ++
                     toString resp.Checksum.val)),
                 r := st.r }
        else some { resp := some resp, err := none, r := st.r }

/-- Go conversion `byte(n)` of an unsigned integer: the low 8 bits. -/
def toByte (n : Nat) : Byte := ⟨n % 256, Nat.mod_lt n (by decide)⟩

/-- The synthetic response frame of the round-trip property: start, command,
the high and the low byte of the concentration, the offset temperature, three
reserved bytes, and last the checksum `0xFF - (sum of the first 8 bytes mod 256)`. -/
def buildFrame (start command : Byte) (concentration : Nat)
    (offsetTemperature r5 r6 r7 : Byte) : List Byte :=
  let first : List Byte :=
    [start, command, toByte (concentration / 256), toByte concentration,
      offsetTemperature, r5, r6, r7]
  first ++ [toByte (0xFF - (first.map fun b => b.val).sum % 256)]

/-- The checksum of the sensor datasheet, as the specification words it: 0xFF
minus the 8-bit sum of the bytes at offsets 1 to 7 of the frame, plus 1, in
8-bit arithmetic. -/
def datasheetChecksum (frame : List Byte) : Nat :=
  let sum := (List.range' 1 7).foldl (fun sum i => (sum + (frame.getD i 0).val) % 256) 0
  ((0xff + 256 - sum) % 256 + 1) % 256

/-! ## Arithmetic of the decoder -/

theorem uint16_value (hi lo : Byte) :
    (lo.val ||| (hi.val <<< 8)) % 65536 = 256 * hi.val + lo.val := by
  have h : 2 ^ 8 * hi.val + lo.val = 2 ^ 8 * hi.val ||| lo.val :=
    Nat.mul_add_lt_is_or (by have := lo.isLt; omega) hi.val
  rw [Nat.shiftLeft_eq, Nat.lor_comm, Nat.mul_comm, ← h]
  have h1 := hi.isLt
  have h2 := lo.isLt
  omega

theorem checksum_frame (b0 b1 b2 b3 b4 b5 b6 b7 b8 : Byte) :
    checksum [b0, b1, b2, b3, b4, b5, b6, b7, b8] =
      0xFF - (b0.val + b1.val + b2.val + b3.val + b4.val + b5.val + b6.val + b7.val) % 256 := by
  have h : checksum [b0, b1, b2, b3, b4, b5, b6, b7, b8] =
      (0xff + 256 - ((((((((0 + b0.val) % 256 + b1.val) % 256 + b2.val) % 256 + b3.val) % 256
        + b4.val) % 256 + b5.val) % 256 + b6.val) % 256 + b7.val) % 256) % 256 := rfl
  rw [h]
  omega

theorem binaryRead_frame (b0 b1 b2 b3 b4 b5 b6 b7 b8 : Byte) :
    binaryRead [b0, b1, b2, b3, b4, b5, b6, b7, b8] =
      { Start := b0, Command := b1, Concentration := 256 * b2.val + b3.val,
        OffsetTemperature := b4, Checksum := b8 } := by
  have h : binaryRead [b0, b1, b2, b3, b4, b5, b6, b7, b8] =
      { Start := b0, Command := b1, Concentration := (b3.val ||| (b2.val <<< 8)) % 65536,
        OffsetTemperature := b4, Checksum := b8 } := rfl
  rw [h, uint16_value]
/-! ## The read loop on error-free chunked sources -/

theorem ReadAtLeastLoop_done (fuel : Nat) (r : Reader) (buf : List Byte) (min n : Nat)
    (err : Option Error) (h : ¬ (n < min ∧ err = none)) :
    ReadAtLeastLoop fuel r buf min n err = some { n := n, err := err, buf := buf, r := r } := by
  cases fuel <;> simp [ReadAtLeastLoop, h]

theorem ReadAtLeastLoop_step (fuel : Nat) (r : Reader) (buf : List Byte) (min n : Nat)
    (h : n < min) :
    ReadAtLeastLoop (fuel + 1) r buf min n none =
      ReadAtLeastLoop fuel (r.Read (buf.length - n)).r
        (store buf n (r.Read (buf.length - n)).data)
        min (n + (r.Read (buf.length - n)).n) (r.Read (buf.length - n)).err := by
  simp [ReadAtLeastLoop, h]

theorem store_length (buf : List Byte) (n : Nat) (data : List Byte)
    (h : n + data.length ≤ buf.length) : (store buf n data).length = buf.length := by
  simp [store]
  omega

theorem take_store (buf : List Byte) (n : Nat) (data : List Byte) (h : n ≤ buf.length) :
    (store buf n data).take (n + data.length) = buf.take n ++ data := by
  have hl : (buf.take n ++ data).length = n + data.length := by simp [h]
  unfold store
  rw [← hl, List.take_left]

theorem ReadAtLeastLoop_chunked (cs : List (List Byte)) :
    ∀ (fuel : Nat) (buf : List Byte) (n : Nat), cs.length < fuel → n ≤ buf.length →
      buf.length ≤ n + cs.flatten.length →
      ∃ cs', cs'.flatten = cs.flatten.drop (buf.length - n) ∧
        ReadAtLeastLoop fuel (chunked cs) buf buf.length n none =
          some { n := buf.length, err := none,
                 buf := buf.take n ++ cs.flatten.take (buf.length - n), r := chunked cs' } := by
  induction cs with
  | nil =>
    intro fuel buf n _ hn hlen
    simp at hlen
    have hn' : n = buf.length := by omega
    refine ⟨[], by simp, ?_⟩
    rw [ReadAtLeastLoop_done _ _ _ _ _ _ (by omega)]
    simp [hn']
  | cons c cs ih =>
    intro fuel buf n hfuel hn hlen
    simp only [List.flatten_cons, List.length_append, List.length_cons] at hlen hfuel
    by_cases hlt : n < buf.length
    · obtain ⟨f, rfl⟩ : ∃ f, fuel = f + 1 := ⟨fuel - 1, by omega⟩
      rw [ReadAtLeastLoop_step _ _ _ _ _ hlt]
      by_cases hc : c.length ≤ buf.length - n
      · have hread : Reader.Read (chunked (c :: cs)) (buf.length - n) =
            { n := c.length, data := c, err := none, r := chunked cs } := by
          simp [chunked, Reader.Read, hc]
        rw [hread]
        have hsl := store_length buf n c (by omega)
        obtain ⟨cs', hfl, hloop⟩ := ih f (store buf n c) (n + c.length)
          (by omega) (by omega) (by omega)
        refine ⟨cs', ?_, ?_⟩
        · rw [hfl, hsl, List.flatten_cons, List.drop_append_eq_append_drop,
            List.drop_eq_nil_of_le hc, List.nil_append]
          congr 1
          omega
        · rw [hsl] at hloop
          simp only []
          rw [hloop, take_store buf n c hn, List.flatten_cons, List.take_append_eq_append_take,
            List.take_of_length_le hc, List.append_assoc]
          have : buf.length - (n + c.length) = buf.length - n - c.length := by omega
          rw [this]
      · have hc' : buf.length - n < c.length := by omega
        have hread : Reader.Read (chunked (c :: cs)) (buf.length - n) =
            { n := buf.length - n, data := c.take (buf.length - n), err := none,
              r := chunked (c.drop (buf.length - n) :: cs) } := by
          simp [chunked, Reader.Read, hc]
        rw [hread]
        have hl : (c.take (buf.length - n)).length = buf.length - n := by
          simp; omega
        refine ⟨c.drop (buf.length - n) :: cs, ?_, ?_⟩
        · have h0 : buf.length - n - c.length = 0 := by omega
          rw [List.flatten_cons, List.flatten_cons, List.drop_append_eq_append_drop, h0,
            List.drop_zero]
        · simp only []
          rw [ReadAtLeastLoop_done _ _ _ _ _ _ (by omega)]
          have h0 : buf.length - n - c.length = 0 := by omega
          have h1 : n + (buf.length - n) = buf.length := by omega
          rw [List.flatten_cons, List.take_append_eq_append_take, h0, List.take_zero,
            List.append_nil, h1]
          simp [store, hl, h1]
    · have hn' : n = buf.length := by omega
      refine ⟨c :: cs, by simp [hn'], ?_⟩
      rw [ReadAtLeastLoop_done _ _ _ _ _ _ (by omega)]
      simp [hn']
theorem ReadFull_chunked (cs : List (List Byte)) (fuel : Nat) (buf : List Byte)
    (hfuel : cs.length < fuel) (hlen : buf.length ≤ cs.flatten.length) :
    ∃ cs', cs'.flatten = cs.flatten.drop buf.length ∧
      ReadFull fuel (chunked cs) buf =
        some { n := buf.length, err := none, buf := cs.flatten.take buf.length,
               r := chunked cs' } := by
  obtain ⟨cs', hfl, hloop⟩ := ReadAtLeastLoop_chunked cs fuel buf 0 hfuel (Nat.zero_le _)
    (by omega)
  refine ⟨cs', by simpa using hfl, ?_⟩
  simp [ReadFull, ReadAtLeast, hloop]

theorem ReadGasConcentrationResponse_chunked (cs : List (List Byte))
    (b0 b1 b2 b3 b4 b5 b6 b7 b8 : Byte) (rest : List Byte) (fuel : Nat)
    (hcs : cs.flatten = [b0, b1, b2, b3, b4, b5, b6, b7, b8] ++ rest)
    (hfuel : cs.length < fuel) :
    ∃ cs', cs'.flatten = rest ∧
      ReadGasConcentrationResponse fuel (chunked cs) =
        some { resp := some { Start := b0, Command := b1,
                              Concentration := 256 * b2.val + b3.val,
                              OffsetTemperature := b4, Checksum := b8 },
               err :=
                 if 0xFF - (b0.val + b1.val + b2.val + b3.val + b4.val + b5.val + b6.val
                     + b7.val) % 256 ≠ b8.val then
                   some (Error.ChecksumError
                     ("checksum failed: got " ++
                       toString (0xFF - (b0.val + b1.val + b2.val + b3.val + b4.val + b5.val
                         + b6.val + b7.val) % 256) ++
                       " want " ++ toString b8.val))
                 else none,
               r := chunked cs' } := by
  obtain ⟨cs', hfl, hread⟩ := ReadFull_chunked cs fuel (List.replicate 9 0) hfuel
    (by simp [hcs])
  rw [hcs] at hfl hread
  simp only [List.length_replicate] at hfl hread
  have htake : List.take 9 ([b0, b1, b2, b3, b4, b5, b6, b7, b8] ++ rest) =
      [b0, b1, b2, b3, b4, b5, b6, b7, b8] := by simp
  have hdrop : List.drop 9 ([b0, b1, b2, b3, b4, b5, b6, b7, b8] ++ rest) = rest := by simp
  rw [htake] at hread
  rw [hdrop] at hfl
  refine ⟨cs', hfl, ?_⟩
  unfold ReadGasConcentrationResponse
  simp only [hread, checksum_frame, binaryRead_frame]
  by_cases h : 0xFF - (b0.val + b1.val + b2.val + b3.val + b4.val + b5.val + b6.val + b7.val) % 256
      = b8.val
  · simp [h]
  · simp [h]

/-! ## The read loop on sources that end early -/

theorem ReadAtLeastLoop_short (r : Reader) :
    ∀ (fuel : Nat) (buf : List Byte) (n : Nat), r.length < fuel →
      n + (r.map fun ev => ev.data).flatten.length < buf.length →
      (∀ ev ∈ r, ev.err = none ∨ ev.err = some Error.EOF) →
      ∃ st, ReadAtLeastLoop fuel r buf buf.length n none = some st ∧
        st.n < buf.length ∧ st.err = some Error.EOF := by
  induction r with
  | nil =>
    intro fuel buf n hfuel hlen _
    simp only [List.map_nil, List.flatten_nil, List.length_nil] at hlen hfuel
    obtain ⟨f, rfl⟩ : ∃ f, fuel = f + 1 := ⟨fuel - 1, by omega⟩
    rw [ReadAtLeastLoop_step _ _ _ _ _ (by omega)]
    refine ⟨_, ReadAtLeastLoop_done _ _ _ _ _ _ (by simp [Reader.Read]), ?_, ?_⟩
    · simp [Reader.Read]; omega
    · simp [Reader.Read]
  | cons ev r ih =>
    intro fuel buf n hfuel hlen herr
    simp only [List.map_cons, List.flatten_cons, List.length_append, List.length_cons]
      at hlen hfuel
    obtain ⟨f, rfl⟩ : ∃ f, fuel = f + 1 := ⟨fuel - 1, by omega⟩
    rw [ReadAtLeastLoop_step _ _ _ _ _ (by omega)]
    have hread : Reader.Read (ev :: r) (buf.length - n) =
        { n := ev.data.length, data := ev.data, err := ev.err, r := r } := by
      have : ev.data.length ≤ buf.length - n := by omega
      simp [Reader.Read, this]
    rw [hread]
    simp only []
    rcases herr ev (List.mem_cons_self _ _) with he | he
    · rw [he]
      have hsl := store_length buf n ev.data (by omega)
      obtain ⟨st, hst, hn, hE⟩ := ih f (store buf n ev.data) (n + ev.data.length) (by omega)
        (by rw [hsl]; omega) (fun ev' h' => herr ev' (List.mem_cons_of_mem _ h'))
      rw [hsl] at hst hn
      exact ⟨st, hst, hn, hE⟩
    · rw [he]
      refine ⟨_, ReadAtLeastLoop_done _ _ _ _ _ _ (by simp), ?_, ?_⟩
      · simp; omega
      · simp

theorem ReadFull_short (r : Reader) (fuel : Nat) (buf : List Byte) (hfuel : r.length < fuel)
    (hlen : (r.map fun ev => ev.data).flatten.length < buf.length)
    (herr : ∀ ev ∈ r, ev.err = none ∨ ev.err = some Error.EOF) :
    ∃ st, ReadFull fuel r buf = some st ∧
      (st.err = some Error.EOF ∨ st.err = some Error.ErrUnexpectedEOF) := by
  obtain ⟨st, hst, hn, hE⟩ := ReadAtLeastLoop_short r fuel buf 0 hfuel (by omega) herr
  by_cases h0 : st.n > 0
  · exact ⟨{ st with err := some Error.ErrUnexpectedEOF },
      by simp [ReadFull, ReadAtLeast, hst, Nat.not_le.2 hn, h0, hE], Or.inr rfl⟩
  · exact ⟨st, by simp [ReadFull, ReadAtLeast, hst, Nat.not_le.2 hn, h0], Or.inl hE⟩

/-! ## The claims -/

/-- Claim C1: when the source delivers the nine bytes `b0 .. b8` (in reads of any
sizes, followed by anything), `ReadGasConcentrationResponse` returns, its error is
nil exactly when `b8 = 0xFF - ((b0 + ... + b7) mod 256)`, and otherwise its error is
a `ChecksumError`. -/
theorem error_nil_iff_checksum (cs : List (List Byte)) (b0 b1 b2 b3 b4 b5 b6 b7 b8 : Byte)
    (rest : List Byte) (fuel : Nat)
    (hcs : cs.flatten = [b0, b1, b2, b3, b4, b5, b6, b7, b8] ++ rest)
    (hfuel : cs.length < fuel) :
    ∃ res, ReadGasConcentrationResponse fuel (chunked cs) = some res ∧
      (res.err = none ↔
        b8.val = 0xFF - (b0.val + b1.val + b2.val + b3.val + b4.val + b5.val + b6.val
          + b7.val) % 256) ∧
      (res.err ≠ none → ∃ msg, res.err = some (Error.ChecksumError msg)) := by
  obtain ⟨cs', -, h⟩ :=
    ReadGasConcentrationResponse_chunked cs b0 b1 b2 b3 b4 b5 b6 b7 b8 rest fuel hcs hfuel
  refine ⟨_, h, ?_, ?_⟩
  · by_cases hsum : 0xFF - (b0.val + b1.val + b2.val + b3.val + b4.val + b5.val + b6.val
        + b7.val) % 256 = b8.val
    · simp [hsum]
    · have hsum' : ¬ b8.val = 0xFF - (b0.val + b1.val + b2.val + b3.val + b4.val + b5.val
          + b6.val + b7.val) % 256 := fun h' => hsum h'.symm
      simp [hsum, hsum']
  · by_cases hsum : 0xFF - (b0.val + b1.val + b2.val + b3.val + b4.val + b5.val + b6.val
        + b7.val) % 256 = b8.val
    · simp [hsum]
    · intro _
      simp [hsum]

theorem error_nil_iff_checksum_witness :
    ∃ res, ReadGasConcentrationResponse 5
        (chunked [[0xFF, 0x86, 0x03], [], [0xE8, 0x23, 0x00, 0x00, 0x00], [0x6C, 0x07, 0x07]])
        = some res ∧
      (res.err = none ↔
        (0x6C : Byte).val = 0xFF - ((0xFF : Byte).val + (0x86 : Byte).val + (0x03 : Byte).val
          + (0xE8 : Byte).val + (0x23 : Byte).val + (0x00 : Byte).val + (0x00 : Byte).val
          + (0x00 : Byte).val) % 256) ∧
      (res.err ≠ none → ∃ msg, res.err = some (Error.ChecksumError msg)) :=
  error_nil_iff_checksum
    [[0xFF, 0x86, 0x03], [], [0xE8, 0x23, 0x00, 0x00, 0x00], [0x6C, 0x07, 0x07]]
    0xFF 0x86 0x03 0xE8 0x23 0x00 0x00 0x00 0x6C [0x07, 0x07] 5 (by decide) (by decide)

/-- Claim C2: when the source delivers the nine bytes `b0 .. b8`, the response
returned has `Start = b0`, `Command = b1`, `Concentration = 256 * b2 + b3`,
`OffsetTemperature = b4` and `Checksum = b8`; these are all its fields, so the
reserved bytes `b5 .. b7` appear in none of them. -/
theorem response_fields (cs : List (List Byte)) (b0 b1 b2 b3 b4 b5 b6 b7 b8 : Byte)
    (rest : List Byte) (fuel : Nat)
    (hcs : cs.flatten = [b0, b1, b2, b3, b4, b5, b6, b7, b8] ++ rest)
    (hfuel : cs.length < fuel) :
    ∃ res, ReadGasConcentrationResponse fuel (chunked cs) = some res ∧
      res.resp = some { Start := b0, Command := b1, Concentration := 256 * b2.val + b3.val,
                        OffsetTemperature := b4, Checksum := b8 } := by
  obtain ⟨cs', -, h⟩ :=
    ReadGasConcentrationResponse_chunked cs b0 b1 b2 b3 b4 b5 b6 b7 b8 rest fuel hcs hfuel
  exact ⟨_, h, rfl⟩

theorem response_fields_witness :
    ∃ res, ReadGasConcentrationResponse 3
        (chunked [[0x01, 0x02, 0x03, 0x04], [0x05, 0x06, 0x07, 0x08, 0x09, 0x0A]]) = some res ∧
      res.resp = some { Start := 0x01, Command := 0x02,
                        Concentration := 256 * (0x03 : Byte).val + (0x04 : Byte).val,
                        OffsetTemperature := 0x05, Checksum := 0x09 } :=
  response_fields [[0x01, 0x02, 0x03, 0x04], [0x05, 0x06, 0x07, 0x08, 0x09, 0x0A]]
    0x01 0x02 0x03 0x04 0x05 0x06 0x07 0x08 0x09 [0x0A] 3 (by decide) (by decide)

/-- Claim C3: when the last of the nine bytes differs from the computed checksum,
`ReadGasConcentrationResponse` returns a response (not nil) together with a
`ChecksumError`, and the response holds the positionally decoded fields, the same
ones a valid frame yields. -/
theorem mismatch_keeps_response (cs : List (List Byte)) (b0 b1 b2 b3 b4 b5 b6 b7 b8 : Byte)
    (rest : List Byte) (fuel : Nat)
    (hcs : cs.flatten = [b0, b1, b2, b3, b4, b5, b6, b7, b8] ++ rest)
    (hfuel : cs.length < fuel)
    (hbad : b8.val ≠ 0xFF - (b0.val + b1.val + b2.val + b3.val + b4.val + b5.val + b6.val
      + b7.val) % 256) :
    ∃ res, ReadGasConcentrationResponse fuel (chunked cs) = some res ∧
      res.resp = some { Start := b0, Command := b1, Concentration := 256 * b2.val + b3.val,
                        OffsetTemperature := b4, Checksum := b8 } ∧
      res.err = some (Error.ChecksumError
        ("checksum failed: got " ++
          toString (0xFF - (b0.val + b1.val + b2.val + b3.val + b4.val + b5.val + b6.val
            + b7.val) % 256) ++
          " want " ++ toString b8.val)) := by
  obtain ⟨cs', -, h⟩ :=
    ReadGasConcentrationResponse_chunked cs b0 b1 b2 b3 b4 b5 b6 b7 b8 rest fuel hcs hfuel
  refine ⟨_, h, rfl, ?_⟩
  have hsum : ¬ 0xFF - (b0.val + b1.val + b2.val + b3.val + b4.val + b5.val + b6.val
      + b7.val) % 256 = b8.val := fun h' => hbad h'.symm
  simp [hsum]

theorem mismatch_keeps_response_witness :
    ∃ res, ReadGasConcentrationResponse 2
        (chunked [[0x01, 0x02, 0x03, 0x04, 0x05, 0x06, 0x07, 0x08, 0x09]]) = some res ∧
      res.resp = some { Start := 0x01, Command := 0x02,
                        Concentration := 256 * (0x03 : Byte).val + (0x04 : Byte).val,
                        OffsetTemperature := 0x05, Checksum := 0x09 } ∧
      res.err = some (Error.ChecksumError
        ("checksum failed: got " ++
          toString (0xFF - ((0x01 : Byte).val + (0x02 : Byte).val + (0x03 : Byte).val
            + (0x04 : Byte).val + (0x05 : Byte).val + (0x06 : Byte).val + (0x07 : Byte).val
            + (0x08 : Byte).val) % 256) ++
          " want " ++ toString (0x09 : Byte).val)) :=
  mismatch_keeps_response [[0x01, 0x02, 0x03, 0x04, 0x05, 0x06, 0x07, 0x08, 0x09]]
    0x01 0x02 0x03 0x04 0x05 0x06 0x07 0x08 0x09 [] 2 (by decide) (by decide) (by decide)

/-- Claim C4: `NewGasConcentrationRequest` followed by `Write` hands the sink exactly
the bytes `FF 01 86 00 00 00 00 00 79`, whatever the sink: the encoder output is
constant and has length 9. -/
theorem request_bytes_fixed (w : Writer) :
    (NewGasConcentrationRequest.Write w).2.calls =
        w.calls ++ [[0xFF, 0x01, 0x86, 0x00, 0x00, 0x00, 0x00, 0x00, 0x79]] ∧
      NewGasConcentrationRequest.encode =
        [0xFF, 0x01, 0x86, 0x00, 0x00, 0x00, 0x00, 0x00, 0x79] ∧
      NewGasConcentrationRequest.encode.length = 9 := by
  refine ⟨?_, rfl, rfl⟩
  unfold GasConcentrationRequest.Write Writer.Write
  rcases w with ⟨calls, accepted, script⟩
  rcases script with _ | ⟨⟨n, e⟩, rest⟩ <;> rfl

/-- Claim C5: for every `OffsetTemperature` byte `v`, `Temperature()` is the signed
integer `v - 40`, whatever the other fields of the response (so also for a response
returned with a checksum error); `v = 0` gives `-40`, and the result ranges over
`-40 .. 215`. -/
theorem Temperature_eq (r : GasConcentrationResponse) (v : Byte) :
    ({ r with OffsetTemperature := v }).Temperature = (v.val : Int) - 40 ∧
      ({ r with OffsetTemperature := 0 }).Temperature = -40 ∧
      -40 ≤ r.Temperature ∧ r.Temperature ≤ 215 ∧
      (∀ t : Int, -40 ≤ t → t ≤ 215 →
        ∃ u : Byte, ({ r with OffsetTemperature := u }).Temperature = t) := by
  refine ⟨rfl, rfl, ?_, ?_, ?_⟩
  · unfold GasConcentrationResponse.Temperature
    omega
  · unfold GasConcentrationResponse.Temperature
    have := r.OffsetTemperature.isLt
    omega
  · intro t h1 h2
    refine ⟨⟨(t + 40).toNat, by omega⟩, ?_⟩
    simp only [GasConcentrationResponse.Temperature]
    omega

/-- Claim C6: when the source reaches end of input having provided fewer than nine
bytes (possibly none), `ReadGasConcentrationResponse` returns a nil response and a
non-nil error, which is `io.EOF` or `io.ErrUnexpectedEOF` and so not a
`ChecksumError`. -/
theorem short_read_no_response (r : Reader) (fuel : Nat)
    (hshort : (r.map fun ev => ev.data).flatten.length < 9)
    (heof : ∀ ev ∈ r, ev.err = none ∨ ev.err = some Error.EOF)
    (hfuel : r.length < fuel) :
    ∃ res, ReadGasConcentrationResponse fuel r = some res ∧ res.resp = none ∧
      (res.err = some Error.EOF ∨ res.err = some Error.ErrUnexpectedEOF) ∧
      (∀ e, res.err = some e → e.isChecksumError = false) := by
  obtain ⟨st, hst, herr⟩ := ReadFull_short r fuel (List.replicate 9 0) hfuel
    (by simpa using hshort) heof
  have hres : ∃ e, st.err = some e ∧ (e = Error.EOF ∨ e = Error.ErrUnexpectedEOF) := by
    rcases herr with h | h
    · exact ⟨_, h, Or.inl rfl⟩
    · exact ⟨_, h, Or.inr rfl⟩
  obtain ⟨e, he, hcase⟩ := hres
  refine ⟨{ resp := none, err := some e, r := st.r }, ?_, rfl, ?_, ?_⟩
  · unfold ReadGasConcentrationResponse
    simp only [hst, he]
  · rcases hcase with h | h <;> simp [h]
  · intro e' he'
    simp only [Option.some.injEq] at he'
    subst he'
    rcases hcase with h | h <;> rw [h] <;> rfl

theorem short_read_no_response_witness :
    ∃ res, ReadGasConcentrationResponse 3
        [{ data := [0xFF, 0x86, 0x03], err := none }, { data := [0xE8], err := some Error.EOF }]
        = some res ∧ res.resp = none ∧
      (res.err = some Error.EOF ∨ res.err = some Error.ErrUnexpectedEOF) ∧
      (∀ e, res.err = some e → e.isChecksumError = false) :=
  short_read_no_response
    [{ data := [0xFF, 0x86, 0x03], err := none }, { data := [0xE8], err := some Error.EOF }] 3
    (by decide) (by decide) (by decide)

/-- Claim C7 (round trip): the frame built from start, command, a concentration in
`0 .. 65535`, offset temperature and three reserved bytes, closed by the checksum
`0xFF - (sum of the first 8 bytes mod 256)`, decodes with a nil error and with
`Start`, `Command`, `Concentration`, `OffsetTemperature` and `Checksum` equal to the
values it was built from. -/
theorem round_trip (cs : List (List Byte)) (start command : Byte) (concentration : Nat)
    (offsetTemperature r5 r6 r7 : Byte) (rest : List Byte) (fuel : Nat)
    (hconc : concentration < 65536)
    (hcs : cs.flatten =
      buildFrame start command concentration offsetTemperature r5 r6 r7 ++ rest)
    (hfuel : cs.length < fuel) :
    ∃ res, ReadGasConcentrationResponse fuel (chunked cs) = some res ∧ res.err = none ∧
      res.resp = some
        { Start := start, Command := command, Concentration := concentration,
          OffsetTemperature := offsetTemperature,
          Checksum := toByte (0xFF - (start.val + command.val + concentration / 256
            + concentration % 256 + offsetTemperature.val + r5.val + r6.val + r7.val) % 256) } := by
  have hhi : (toByte (concentration / 256)).val = concentration / 256 := by
    simp only [toByte]
    omega
  have hlo : (toByte concentration).val = concentration % 256 := rfl
  have hsum : (toByte (0xFF - (([start, command, toByte (concentration / 256),
      toByte concentration, offsetTemperature, r5, r6, r7] : List Byte).map
        fun b => b.val).sum % 256)) =
      toByte (0xFF - (start.val + command.val + concentration / 256
            + concentration % 256 + offsetTemperature.val + r5.val + r6.val + r7.val) % 256) := by
    congr 3
    simp only [List.map_cons, List.map_nil, List.sum_cons, List.sum_nil, hhi, hlo]
    omega
  have hframe : buildFrame start command concentration offsetTemperature r5 r6 r7 =
      [start, command, toByte (concentration / 256), toByte concentration,
        offsetTemperature, r5, r6, r7,
        toByte (0xFF - (start.val + command.val + concentration / 256
            + concentration % 256 + offsetTemperature.val + r5.val + r6.val + r7.val) % 256)] := by
    unfold buildFrame
    simp only [hsum, List.cons_append, List.nil_append]
  rw [hframe] at hcs
  obtain ⟨cs', -, h⟩ := ReadGasConcentrationResponse_chunked cs _ _ _ _ _ _ _ _ _ rest fuel
    hcs hfuel
  have hck : (toByte (0xFF - (start.val + command.val + concentration / 256
      + concentration % 256 + offsetTemperature.val + r5.val + r6.val + r7.val) % 256)).val =
      0xFF - (start.val + command.val + concentration / 256
      + concentration % 256 + offsetTemperature.val + r5.val + r6.val + r7.val) % 256 := by
    simp only [toByte]
    omega
  refine ⟨_, h, ?_, ?_⟩
  · simp only [hhi, hlo, hck]
    simp
  · simp only [hhi, hlo]
    have : 256 * (concentration / 256) + concentration % 256 = concentration := by omega
    rw [this]

theorem round_trip_witness :
    ∃ res, ReadGasConcentrationResponse 3
        (chunked [[0xFF, 0x86, 0x03, 0xE8], [0x23, 0x01, 0x02, 0x03, 0x66]]) = some res ∧
      res.err = none ∧
      res.resp = some
        { Start := 0xFF, Command := 0x86, Concentration := 1000, OffsetTemperature := 0x23,
          Checksum := toByte (0xFF - ((0xFF : Byte).val + (0x86 : Byte).val + 1000 / 256
            + 1000 % 256 + (0x23 : Byte).val + (0x01 : Byte).val + (0x02 : Byte).val
            + (0x03 : Byte).val) % 256) } :=
  round_trip [[0xFF, 0x86, 0x03, 0xE8], [0x23, 0x01, 0x02, 0x03, 0x66]]
    0xFF 0x86 1000 0x23 0x01 0x02 0x03 [] 3 (by norm_num) rfl (by decide)

/-- Claim C8: decoding the input bytes `FF 86 03 E8 23 00 00 00 6C` returns no error,
`Concentration = 1000` and `Temperature() = -5`; the checksum the decoder computes
for `FF 86 03 E8 23 00 00 00` is `0x6C`. -/
theorem sample_frame_decodes (cs : List (List Byte)) (fuel : Nat)
    (hcs : cs.flatten = [0xFF, 0x86, 0x03, 0xE8, 0x23, 0x00, 0x00, 0x00, 0x6C])
    (hfuel : cs.length < fuel) :
    (∃ res resp, ReadGasConcentrationResponse fuel (chunked cs) = some res ∧
      res.err = none ∧ res.resp = some resp ∧ resp.Concentration = 1000 ∧
      resp.Temperature = -5) ∧
    ∀ c : Byte, checksum [0xFF, 0x86, 0x03, 0xE8, 0x23, 0x00, 0x00, 0x00, c] = 0x6C := by
  obtain ⟨cs', -, h⟩ := ReadGasConcentrationResponse_chunked cs
    0xFF 0x86 0x03 0xE8 0x23 0x00 0x00 0x00 0x6C [] fuel (by simpa using hcs) hfuel
  refine ⟨⟨_, _, h, ?_, rfl, ?_, ?_⟩, fun c => ?_⟩
  · dsimp only
    decide
  · dsimp only
    decide
  · dsimp only
    decide
  · rw [checksum_frame]
    decide

theorem sample_frame_decodes_witness :
    (∃ res resp, ReadGasConcentrationResponse 2
        (chunked [[0xFF, 0x86, 0x03, 0xE8, 0x23, 0x00, 0x00, 0x00, 0x6C]]) = some res ∧
      res.err = none ∧ res.resp = some resp ∧ resp.Concentration = 1000 ∧
      resp.Temperature = -5) ∧
    ∀ c : Byte, checksum [0xFF, 0x86, 0x03, 0xE8, 0x23, 0x00, 0x00, 0x00, c] = 0x6C :=
  sample_frame_decodes [[0xFF, 0x86, 0x03, 0xE8, 0x23, 0x00, 0x00, 0x00, 0x6C]] 2
    (by decide) (by decide)

/-- Claim C9: decoding the input bytes `FF 86 03 E8 23 00 00 00 00` returns a
`ChecksumError` together with a response (not nil) whose `Concentration` is 1000. -/
theorem sample_frame_bad_checksum (cs : List (List Byte)) (fuel : Nat)
    (hcs : cs.flatten = [0xFF, 0x86, 0x03, 0xE8, 0x23, 0x00, 0x00, 0x00, 0x00])
    (hfuel : cs.length < fuel) :
    ∃ res resp, ReadGasConcentrationResponse fuel (chunked cs) = some res ∧
      res.err = some (Error.ChecksumError "checksum failed: got 108 want 0") ∧
      res.resp = some resp ∧ resp.Concentration = 1000 := by
  obtain ⟨cs', -, h⟩ := ReadGasConcentrationResponse_chunked cs
    0xFF 0x86 0x03 0xE8 0x23 0x00 0x00 0x00 0x00 [] fuel (by simpa using hcs) hfuel
  refine ⟨_, _, h, ?_, rfl, ?_⟩
  · dsimp only
    decide
  · dsimp only
    decide

theorem sample_frame_bad_checksum_witness :
    ∃ res resp, ReadGasConcentrationResponse 4
        (chunked [[0xFF], [0x86, 0x03, 0xE8, 0x23, 0x00], [0x00, 0x00, 0x00]]) = some res ∧
      res.err = some (Error.ChecksumError "checksum failed: got 108 want 0") ∧
      res.resp = some resp ∧ resp.Concentration = 1000 :=
  sample_frame_bad_checksum [[0xFF], [0x86, 0x03, 0xE8, 0x23, 0x00], [0x00, 0x00, 0x00]] 4
    (by decide) (by decide)

/-- Claim C10, as amended: `Write` hands the sink the nine field bytes of the
request in one `Write` call, with no second call, and returns the error of that
call as it is; it returns an error exactly when the sink's answer carries one.
The count the sink returns is not looked at, so the error is the same whatever
the number of bytes the sink took. -/
theorem Write_returns_sink_error (r : GasConcentrationRequest) (w : Writer) :
    (r.Write w).2.calls =
        w.calls ++ [[r.Start, r.SensorNo, r.Command, r.Byte3, r.Byte4, r.Byte5, r.Byte6,
          r.Byte7, r.Checksum]] ∧
      (r.Write w).2.script = w.script.tail ∧
      (r.Write w).1 =
        (w.Write [r.Start, r.SensorNo, r.Command, r.Byte3, r.Byte4, r.Byte5, r.Byte6,
          r.Byte7, r.Checksum]).2.1 ∧
      (r.Write w).2 =
        (w.Write [r.Start, r.SensorNo, r.Command, r.Byte3, r.Byte4, r.Byte5, r.Byte6,
          r.Byte7, r.Checksum]).2.2 ∧
      (∀ n err rest, w.script = (n, err) :: rest → (r.Write w).1 = err) ∧
      (w.script = [] → (r.Write w).1 = none) ∧
      ((r.Write w).1 ≠ none ↔ ∃ n e, w.script.head? = some (n, some e)) := by
  rcases w with ⟨calls, accepted, script⟩
  rcases script with _ | ⟨⟨n, e⟩, rest⟩
  · simp [GasConcentrationRequest.Write, Writer.Write, GasConcentrationRequest.encode]
  · refine ⟨rfl, rfl, rfl, rfl, ?_, ?_, ?_⟩
    · intro n' err rest' h
      simp only [List.cons.injEq, Prod.mk.injEq] at h
      rw [← h.1.2]
      rfl
    · intro h
      cases h
    · cases e <;>
        simp [GasConcentrationRequest.Write, Writer.Write]

/-- The sink that takes four of the nine bytes and reports no error: the write of
the frame has failed, and `Write` returns nil (claim C10 as first stated says it
returns an error). -/
theorem Write_silent_short_write :
    (Writer.Write { calls := [], accepted := [], script := [(4, none)] }
        [0xFF, 0x01, 0x86, 0x00, 0x00, 0x00, 0x00, 0x00, 0x79]).1 = 4 ∧
      (NewGasConcentrationRequest.Write
        { calls := [], accepted := [], script := [(4, none)] }).2.accepted =
          [0xFF, 0x01, 0x86, 0x00] ∧
      (NewGasConcentrationRequest.Write
        { calls := [], accepted := [], script := [(4, none)] }).2.calls =
          [[0xFF, 0x01, 0x86, 0x00, 0x00, 0x00, 0x00, 0x00, 0x79]] ∧
      (NewGasConcentrationRequest.Write
        { calls := [], accepted := [], script := [(4, none)] }).1 = none := by
  decide

/-! ## More arithmetic of the checksum -/

theorem datasheetChecksum_frame (b0 b1 b2 b3 b4 b5 b6 b7 b8 : Byte) :
    datasheetChecksum [b0, b1, b2, b3, b4, b5, b6, b7, b8] =
      (0xFF - (b1.val + b2.val + b3.val + b4.val + b5.val + b6.val + b7.val) % 256 + 1)
        % 256 := by
  have h : datasheetChecksum [b0, b1, b2, b3, b4, b5, b6, b7, b8] =
      ((0xff + 256 - (((((((0 + b1.val) % 256 + b2.val) % 256 + b3.val) % 256
        + b4.val) % 256 + b5.val) % 256 + b6.val) % 256 + b7.val) % 256) % 256 + 1)
        % 256 := rfl
  rw [h]
  omega

set_option maxRecDepth 100000 in
theorem complement_eq_xor (s : Fin 256) : 0xFF - s.val = s.val ^^^ 0xFF := by
  revert s
  decide

/-! ## The read loop on chunked sources followed by anything -/

theorem ReadAtLeastLoop_chunked_then (tail : Reader) (cs : List (List Byte)) :
    ∀ (fuel : Nat) (buf : List Byte) (n : Nat), cs.length < fuel → n ≤ buf.length →
      buf.length ≤ n + cs.flatten.length →
      ∃ cs', cs'.flatten = cs.flatten.drop (buf.length - n) ∧
        ReadAtLeastLoop fuel (chunked cs ++ tail) buf buf.length n none =
          some { n := buf.length, err := none,
                 buf := buf.take n ++ cs.flatten.take (buf.length - n),
                 r := chunked cs' ++ tail } := by
  induction cs with
  | nil =>
    intro fuel buf n _ hn hlen
    simp at hlen
    have hn' : n = buf.length := by omega
    refine ⟨[], by simp, ?_⟩
    rw [ReadAtLeastLoop_done _ _ _ _ _ _ (by omega)]
    simp [hn']
  | cons c cs ih =>
    intro fuel buf n hfuel hn hlen
    simp only [List.flatten_cons, List.length_append, List.length_cons] at hlen hfuel
    by_cases hlt : n < buf.length
    · obtain ⟨f, rfl⟩ : ∃ f, fuel = f + 1 := ⟨fuel - 1, by omega⟩
      rw [ReadAtLeastLoop_step _ _ _ _ _ hlt]
      by_cases hc : c.length ≤ buf.length - n
      · have hread : Reader.Read (chunked (c :: cs) ++ tail) (buf.length - n) =
            { n := c.length, data := c, err := none, r := chunked cs ++ tail } := by
          simp [chunked, Reader.Read, hc]
        rw [hread]
        have hsl := store_length buf n c (by omega)
        obtain ⟨cs', hfl, hloop⟩ := ih f (store buf n c) (n + c.length)
          (by omega) (by omega) (by omega)
        refine ⟨cs', ?_, ?_⟩
        · rw [hfl, hsl, List.flatten_cons, List.drop_append_eq_append_drop,
            List.drop_eq_nil_of_le hc, List.nil_append]
          congr 1
          omega
        · rw [hsl] at hloop
          simp only []
          rw [hloop, take_store buf n c hn, List.flatten_cons, List.take_append_eq_append_take,
            List.take_of_length_le hc, List.append_assoc]
          have : buf.length - (n + c.length) = buf.length - n - c.length := by omega
          rw [this]
      · have hc' : buf.length - n < c.length := by omega
        have hread : Reader.Read (chunked (c :: cs) ++ tail) (buf.length - n) =
            { n := buf.length - n, data := c.take (buf.length - n), err := none,
              r := chunked (c.drop (buf.length - n) :: cs) ++ tail } := by
          simp [chunked, Reader.Read, hc]
        rw [hread]
        have hl : (c.take (buf.length - n)).length = buf.length - n := by
          simp; omega
        refine ⟨c.drop (buf.length - n) :: cs, ?_, ?_⟩
        · have h0 : buf.length - n - c.length = 0 := by omega
          rw [List.flatten_cons, List.flatten_cons, List.drop_append_eq_append_drop, h0,
            List.drop_zero]
        · simp only []
          rw [ReadAtLeastLoop_done _ _ _ _ _ _ (by omega)]
          have h0 : buf.length - n - c.length = 0 := by omega
          have h1 : n + (buf.length - n) = buf.length := by omega
          rw [List.flatten_cons, List.take_append_eq_append_take, h0, List.take_zero,
            List.append_nil, h1]
          simp [store, hl, h1]
    · have hn' : n = buf.length := by omega
      refine ⟨c :: cs, by simp [hn'], ?_⟩
      rw [ReadAtLeastLoop_done _ _ _ _ _ _ (by omega)]
      simp [hn']

theorem ReadFull_chunked_then (tail : Reader) (cs : List (List Byte)) (fuel : Nat)
    (buf : List Byte) (hfuel : cs.length < fuel) (hlen : buf.length ≤ cs.flatten.length) :
    ∃ cs', cs'.flatten = cs.flatten.drop buf.length ∧
      ReadFull fuel (chunked cs ++ tail) buf =
        some { n := buf.length, err := none, buf := cs.flatten.take buf.length,
               r := chunked cs' ++ tail } := by
  obtain ⟨cs', hfl, hloop⟩ := ReadAtLeastLoop_chunked_then tail cs fuel buf 0 hfuel
    (Nat.zero_le _) (by omega)
  refine ⟨cs', by simpa using hfl, ?_⟩
  simp [ReadFull, ReadAtLeast, hloop]

theorem ReadGasConcentrationResponse_chunked_then (tail : Reader) (cs : List (List Byte))
    (b0 b1 b2 b3 b4 b5 b6 b7 b8 : Byte) (rest : List Byte) (fuel : Nat)
    (hcs : cs.flatten = [b0, b1, b2, b3, b4, b5, b6, b7, b8] ++ rest)
    (hfuel : cs.length < fuel) :
    ∃ cs', cs'.flatten = rest ∧
      ReadGasConcentrationResponse fuel (chunked cs ++ tail) =
        some { resp := some { Start := b0, Command := b1,
                              Concentration := 256 * b2.val + b3.val,
                              OffsetTemperature := b4, Checksum := b8 },
               err :=
                 if 0xFF - (b0.val + b1.val + b2.val + b3.val + b4.val + b5.val + b6.val
                     + b7.val) % 256 ≠ b8.val then
                   some (Error.ChecksumError
                     ("checksum failed: got " ++
                       toString (0xFF - (b0.val + b1.val + b2.val + b3.val + b4.val + b5.val
                         + b6.val + b7.val) % 256) ++
                       " want " ++ toString b8.val))
                 else none,
               r := chunked cs' ++ tail } := by
  obtain ⟨cs', hfl, hread⟩ := ReadFull_chunked_then tail cs fuel (List.replicate 9 0) hfuel
    (by simp [hcs])
  rw [hcs] at hfl hread
  simp only [List.length_replicate] at hfl hread
  have htake : List.take 9 ([b0, b1, b2, b3, b4, b5, b6, b7, b8] ++ rest) =
      [b0, b1, b2, b3, b4, b5, b6, b7, b8] := by simp
  have hdrop : List.drop 9 ([b0, b1, b2, b3, b4, b5, b6, b7, b8] ++ rest) = rest := by simp
  rw [htake] at hread
  rw [hdrop] at hfl
  refine ⟨cs', hfl, ?_⟩
  unfold ReadGasConcentrationResponse
  simp only [hread, checksum_frame, binaryRead_frame]
  by_cases h : 0xFF - (b0.val + b1.val + b2.val + b3.val + b4.val + b5.val + b6.val + b7.val) % 256
      = b8.val
  · simp [h]
  · simp [h]

theorem nine_bytes (l : List Byte) (h : l.length = 9) :
    ∃ b0 b1 b2 b3 b4 b5 b6 b7 b8, l = [b0, b1, b2, b3, b4, b5, b6, b7, b8] := by
  rcases l with _ | ⟨b0, _ | ⟨b1, _ | ⟨b2, _ | ⟨b3, _ | ⟨b4, _ | ⟨b5, _ | ⟨b6, _ | ⟨b7,
    _ | ⟨b8, _ | ⟨b9, l⟩⟩⟩⟩⟩⟩⟩⟩⟩⟩ <;> simp at h
  exact ⟨b0, b1, b2, b3, b4, b5, b6, b7, b8, rfl⟩

/-! ## The read loop on any source -/

theorem Read_data_length_le (r : Reader) (k : Nat) : (r.Read k).data.length ≤ k := by
  unfold Reader.Read
  rcases r with _ | ⟨ev, rest⟩
  · simp
  · by_cases h : ev.data.length ≤ k
    · simp [h]
    · simp only [h, if_false]
      split <;> simp only [List.length_take] <;> omega

theorem Read_n_le (r : Reader) (k : Nat) (hr : ∀ ev ∈ r, ev.overrun = false) :
    (r.Read k).n ≤ k := by
  unfold Reader.Read
  rcases r with _ | ⟨ev, rest⟩
  · simp
  · have ho : ev.overrun = false := hr ev (List.mem_cons_self _ _)
    by_cases h : ev.data.length ≤ k
    · simp [h]
    · simp [h, ho]

theorem Read_no_overrun (r : Reader) (k : Nat) (hr : ∀ ev ∈ r, ev.overrun = false) :
    ∀ ev ∈ (r.Read k).r, ev.overrun = false := by
  unfold Reader.Read
  rcases r with _ | ⟨ev, rest⟩
  · simp
  · have ho : ev.overrun = false := hr ev (List.mem_cons_self _ _)
    have hrest : ∀ ev' ∈ rest, ev'.overrun = false :=
      fun ev' h' => hr ev' (List.mem_cons_of_mem _ h')
    by_cases h : ev.data.length ≤ k
    · simpa [h] using hrest
    · simp only [h, ho, if_false, Bool.false_eq_true, List.mem_cons]
      intro ev' h'
      rcases h' with rfl | h'
      · rfl
      · exact hrest ev' h'

theorem ReadAtLeastLoop_out_of_fuel (r : Reader) (buf : List Byte) (min n : Nat)
    (err : Option Error) (h : n < min ∧ err = none) :
    ReadAtLeastLoop 0 r buf min n err = none := by
  simp [ReadAtLeastLoop, h]

theorem ReadAtLeastLoop_bound :
    ∀ (fuel : Nat) (r : Reader) (buf : List Byte) (min n : Nat) (err : Option Error)
      (st : ReadState), (∀ ev ∈ r, ev.overrun = false) → n ≤ buf.length →
      ReadAtLeastLoop fuel r buf min n err = some st →
      st.n ≤ buf.length ∧ (st.n < min → st.err ≠ none) := by
  intro fuel
  induction fuel with
  | zero =>
    intro r buf min n err st _ hn hloop
    by_cases h : n < min ∧ err = none
    · rw [ReadAtLeastLoop_out_of_fuel _ _ _ _ _ h] at hloop
      cases hloop
    · rw [ReadAtLeastLoop_done _ _ _ _ _ _ h] at hloop
      cases hloop
      exact ⟨hn, fun hlt herr => h ⟨hlt, herr⟩⟩
  | succ f ih =>
    intro r buf min n err st hr hn hloop
    by_cases h : n < min ∧ err = none
    · obtain ⟨hlt, rfl⟩ := h
      rw [ReadAtLeastLoop_step _ _ _ _ _ hlt] at hloop
      have hk := Read_n_le r (buf.length - n) hr
      have hd := Read_data_length_le r (buf.length - n)
      have hsl := store_length buf n (r.Read (buf.length - n)).data (by omega)
      have := ih _ _ _ _ _ st (Read_no_overrun r (buf.length - n) hr) (by rw [hsl]; omega)
        hloop
      rw [hsl] at this
      exact this
    · rw [ReadAtLeastLoop_done _ _ _ _ _ _ h] at hloop
      cases hloop
      exact ⟨hn, fun hlt herr => h ⟨hlt, herr⟩⟩

theorem ReadFull_nil_error (fuel : Nat) (r : Reader) (buf : List Byte) (st : ReadState)
    (hr : ∀ ev ∈ r, ev.overrun = false)
    (h : ReadFull fuel r buf = some st) (herr : st.err = none) : st.n = buf.length := by
  unfold ReadFull ReadAtLeast at h
  simp only [Nat.lt_irrefl, if_false] at h
  cases hloop : ReadAtLeastLoop fuel r buf buf.length 0 none with
  | none => simp [hloop] at h
  | some st0 =>
    obtain ⟨hle, hne⟩ := ReadAtLeastLoop_bound fuel r buf buf.length 0 none st0 hr
      (Nat.zero_le _) hloop
    simp only [hloop] at h
    by_cases h1 : st0.n ≥ buf.length
    · simp only [h1, if_true, Option.some.injEq] at h
      subst h
      exact Nat.le_antisymm hle h1
    · simp only [h1, if_false] at h
      by_cases h2 : st0.n > 0 ∧ st0.err = some Error.EOF
      · simp only [h2, and_self, if_true, Option.some.injEq] at h
        subst h
        simp at herr
      · simp only [h2, if_false, Option.some.injEq] at h
        subst h
        exact absurd herr (hne (by omega))

/-! ## The claims on framing, checksum arithmetic and error paths -/

/-- Claim C11: when the source delivers at least nine bytes, in error-free reads of
any sizes and followed by anything, `ReadGasConcentrationResponse` returns the
response and the error it returns for the first nine bytes delivered in one read,
and it leaves in the source exactly the bytes after the ninth and what follows
them. -/
theorem result_of_first_nine_bytes (cs : List (List Byte)) (tail : Reader) (fuel : Nat)
    (hlen : 9 ≤ cs.flatten.length) (hfuel : cs.length < fuel) :
    ∃ res one cs',
      ReadGasConcentrationResponse fuel (chunked cs ++ tail) = some res ∧
      ReadGasConcentrationResponse 2 (chunked [cs.flatten.take 9]) = some one ∧
      res.resp = one.resp ∧ res.err = one.err ∧
      res.r = chunked cs' ++ tail ∧ cs'.flatten = cs.flatten.drop 9 := by
  obtain ⟨b0, b1, b2, b3, b4, b5, b6, b7, b8, hb⟩ := nine_bytes (cs.flatten.take 9)
    (by rw [List.length_take]; omega)
  have hcs : cs.flatten = [b0, b1, b2, b3, b4, b5, b6, b7, b8] ++ cs.flatten.drop 9 := by
    rw [← hb, List.take_append_drop]
  obtain ⟨cs', hfl, h⟩ := ReadGasConcentrationResponse_chunked_then tail cs
    b0 b1 b2 b3 b4 b5 b6 b7 b8 (cs.flatten.drop 9) fuel hcs hfuel
  obtain ⟨cs1, -, h1⟩ := ReadGasConcentrationResponse_chunked
    [[b0, b1, b2, b3, b4, b5, b6, b7, b8]] b0 b1 b2 b3 b4 b5 b6 b7 b8 [] 2 (by simp)
    (by simp)
  rw [hb]
  exact ⟨_, _, cs', h, h1, rfl, rfl, rfl, hfl⟩

theorem result_of_first_nine_bytes_witness :
    ∃ res one cs',
      ReadGasConcentrationResponse 4
        (chunked [[0xFF, 0x86], [], [0x03, 0xE8, 0x23, 0x00, 0x00, 0x00, 0x6C, 0x11, 0x22]]
          ++ [{ data := [0x33], err := some Error.EOF }]) = some res ∧
      ReadGasConcentrationResponse 2
        (chunked [([[0xFF, 0x86], [], [0x03, 0xE8, 0x23, 0x00, 0x00, 0x00, 0x6C, 0x11, 0x22]]
          : List (List Byte)).flatten.take 9]) = some one ∧
      res.resp = one.resp ∧ res.err = one.err ∧
      res.r = chunked cs' ++ [{ data := [0x33], err := some Error.EOF }] ∧
      cs'.flatten =
        ([[0xFF, 0x86], [], [0x03, 0xE8, 0x23, 0x00, 0x00, 0x00, 0x6C, 0x11, 0x22]]
          : List (List Byte)).flatten.drop 9 :=
  result_of_first_nine_bytes
    [[0xFF, 0x86], [], [0x03, 0xE8, 0x23, 0x00, 0x00, 0x00, 0x6C, 0x11, 0x22]]
    [{ data := [0x33], err := some Error.EOF }] 4 (by decide) (by decide)

/-- Claim C12: for every frame whose start byte is 0xFF, the checksum the decoder
computes (0xFF minus the 8-bit sum of bytes 0..7) equals the datasheet checksum
(0xFF minus the 8-bit sum of bytes 1..7, plus 1, mod 256), so the decoder accepts
the frame exactly when its last byte is the datasheet checksum. -/
theorem checksum_matches_datasheet (cs : List (List Byte)) (b1 b2 b3 b4 b5 b6 b7 b8 : Byte)
    (rest : List Byte) (fuel : Nat)
    (hcs : cs.flatten = [0xFF, b1, b2, b3, b4, b5, b6, b7, b8] ++ rest)
    (hfuel : cs.length < fuel) :
    checksum [0xFF, b1, b2, b3, b4, b5, b6, b7, b8] =
        datasheetChecksum [0xFF, b1, b2, b3, b4, b5, b6, b7, b8] ∧
      ∃ res, ReadGasConcentrationResponse fuel (chunked cs) = some res ∧
        (res.err = none ↔
          b8.val = datasheetChecksum [0xFF, b1, b2, b3, b4, b5, b6, b7, b8]) := by
  have hff : ((0xFF : Byte) : Nat) = 255 := rfl
  have heq : checksum [0xFF, b1, b2, b3, b4, b5, b6, b7, b8] =
      datasheetChecksum [0xFF, b1, b2, b3, b4, b5, b6, b7, b8] := by
    rw [checksum_frame, datasheetChecksum_frame, hff]
    omega
  refine ⟨heq, ?_⟩
  obtain ⟨cs', -, h⟩ :=
    ReadGasConcentrationResponse_chunked cs 0xFF b1 b2 b3 b4 b5 b6 b7 b8 rest fuel hcs hfuel
  refine ⟨_, h, ?_⟩
  rw [← heq, checksum_frame]
  by_cases hsum : 0xFF - ((0xFF : Byte).val + b1.val + b2.val + b3.val + b4.val + b5.val
      + b6.val + b7.val) % 256 = b8.val
  · simp [hsum]
  · have hsum' : ¬ b8.val = 0xFF - ((0xFF : Byte).val + b1.val + b2.val + b3.val + b4.val
        + b5.val + b6.val + b7.val) % 256 := fun h' => hsum h'.symm
    simp [hsum, hsum']

theorem checksum_matches_datasheet_witness :
    checksum [0xFF, 0x86, 0x03, 0xE8, 0x23, 0x00, 0x00, 0x00, 0x6C] =
        datasheetChecksum [0xFF, 0x86, 0x03, 0xE8, 0x23, 0x00, 0x00, 0x00, 0x6C] ∧
      ∃ res, ReadGasConcentrationResponse 3
          (chunked [[0xFF, 0x86, 0x03, 0xE8], [0x23, 0x00, 0x00, 0x00, 0x6C]]) = some res ∧
        (res.err = none ↔
          (0x6C : Byte).val =
            datasheetChecksum [0xFF, 0x86, 0x03, 0xE8, 0x23, 0x00, 0x00, 0x00, 0x6C]) :=
  checksum_matches_datasheet [[0xFF, 0x86, 0x03, 0xE8], [0x23, 0x00, 0x00, 0x00, 0x6C]]
    0x86 0x03 0xE8 0x23 0x00 0x00 0x00 0x6C [] 3 (by decide) (by decide)

/-- Claim C13: the decoder does not look at the start or the command byte: whatever
`b0` and `b1` are (so also for `b0` other than 0xFF or `b1` other than 0x86), the
error is nil exactly when the checksum byte matches, and a frame with a matching
checksum byte decodes with a nil error and with `Start = b0`, `Command = b1`. -/
theorem start_command_not_inspected (cs : List (List Byte))
    (b0 b1 b2 b3 b4 b5 b6 b7 b8 : Byte) (rest : List Byte) (fuel : Nat)
    (hcs : cs.flatten = [b0, b1, b2, b3, b4, b5, b6, b7, b8] ++ rest)
    (hfuel : cs.length < fuel) :
    ∃ res, ReadGasConcentrationResponse fuel (chunked cs) = some res ∧
      (res.err = none ↔
        b8.val = 0xFF - (b0.val + b1.val + b2.val + b3.val + b4.val + b5.val + b6.val
          + b7.val) % 256) ∧
      (b8.val = 0xFF - (b0.val + b1.val + b2.val + b3.val + b4.val + b5.val + b6.val
          + b7.val) % 256 →
        res.err = none ∧ ∃ resp, res.resp = some resp ∧ resp.Start = b0 ∧
          resp.Command = b1) := by
  obtain ⟨cs', -, h⟩ :=
    ReadGasConcentrationResponse_chunked cs b0 b1 b2 b3 b4 b5 b6 b7 b8 rest fuel hcs hfuel
  refine ⟨_, h, ?_, ?_⟩
  · by_cases hsum : 0xFF - (b0.val + b1.val + b2.val + b3.val + b4.val + b5.val + b6.val
        + b7.val) % 256 = b8.val
    · simp [hsum]
    · have hsum' : ¬ b8.val = 0xFF - (b0.val + b1.val + b2.val + b3.val + b4.val + b5.val
          + b6.val + b7.val) % 256 := fun h' => hsum h'.symm
      simp [hsum, hsum']
  · intro hsum
    refine ⟨?_, _, rfl, rfl, rfl⟩
    simp [hsum.symm]

theorem start_command_not_inspected_witness :
    ∃ res, ReadGasConcentrationResponse 2
        (chunked [[0x12, 0x34, 0x03, 0xE8, 0x23, 0x00, 0x00, 0x00, 0xAB]]) = some res ∧
      (res.err = none ↔
        (0xAB : Byte).val = 0xFF - ((0x12 : Byte).val + (0x34 : Byte).val + (0x03 : Byte).val
          + (0xE8 : Byte).val + (0x23 : Byte).val + (0x00 : Byte).val + (0x00 : Byte).val
          + (0x00 : Byte).val) % 256) ∧
      ((0xAB : Byte).val = 0xFF - ((0x12 : Byte).val + (0x34 : Byte).val + (0x03 : Byte).val
          + (0xE8 : Byte).val + (0x23 : Byte).val + (0x00 : Byte).val + (0x00 : Byte).val
          + (0x00 : Byte).val) % 256 →
        res.err = none ∧ ∃ resp, res.resp = some resp ∧ resp.Start = 0x12 ∧
          resp.Command = 0x34) :=
  start_command_not_inspected [[0x12, 0x34, 0x03, 0xE8, 0x23, 0x00, 0x00, 0x00, 0xAB]]
    0x12 0x34 0x03 0xE8 0x23 0x00 0x00 0x00 0xAB [] 2 (by decide) (by decide)

/-- Claim C14: the checksum the decoder computes, adding the bytes one at a time
in an accumulator that wraps mod 256 at each step and subtracting the result from
0xFF in 8-bit arithmetic, is `255 - ((b0 + ... + b7) mod 256)` over the integers;
the subtraction does not underflow, the result lies in `0 .. 255` and is the
bitwise complement of the wrapped sum. -/
theorem checksum_no_underflow (b0 b1 b2 b3 b4 b5 b6 b7 c : Byte) :
    checksum [b0, b1, b2, b3, b4, b5, b6, b7, c] =
        (0xff + 256 - ((((((((0 + b0.val) % 256 + b1.val) % 256 + b2.val) % 256
          + b3.val) % 256 + b4.val) % 256 + b5.val) % 256 + b6.val) % 256 + b7.val) % 256)
          % 256 ∧
      ((checksum [b0, b1, b2, b3, b4, b5, b6, b7, c] : Nat) : Int) =
        255 - ((b0.val : Int) + b1.val + b2.val + b3.val + b4.val + b5.val + b6.val
          + b7.val) % 256 ∧
      checksum [b0, b1, b2, b3, b4, b5, b6, b7, c] < 256 ∧
      checksum [b0, b1, b2, b3, b4, b5, b6, b7, c] =
        ((b0.val + b1.val + b2.val + b3.val + b4.val + b5.val + b6.val + b7.val) % 256)
          ^^^ 0xFF := by
  refine ⟨rfl, ?_, ?_, ?_⟩
  · rw [checksum_frame]
    omega
  · rw [checksum_frame]
    omega
  · rw [checksum_frame]
    exact complement_eq_xor
      ⟨(b0.val + b1.val + b2.val + b3.val + b4.val + b5.val + b6.val + b7.val) % 256,
        Nat.mod_lt _ (by decide)⟩

/-- Claim C15: the checksum constant 0x79 of the fixed request frame is 0xFF minus
the 8-bit sum of its first eight bytes `FF 01 86 00 00 00 00 00`, so the nine bytes
`Write` hands to the sink, fed to `ReadGasConcentrationResponse`, give a nil error. -/
theorem request_frame_checksum_consistent (w : Writer) (fuel : Nat) :
    NewGasConcentrationRequest.Checksum.val = 0x79 ∧
      checksum NewGasConcentrationRequest.encode = 0x79 ∧
      (0x79 : Nat) = 0xFF - (0xFF + 0x01 + 0x86 + 0x00 + 0x00 + 0x00 + 0x00 + 0x00) % 256 ∧
      ∃ frame res, (NewGasConcentrationRequest.Write w).2.calls = w.calls ++ [frame] ∧
        ReadGasConcentrationResponse (fuel + 2) (chunked [frame]) = some res ∧
        res.err = none := by
  refine ⟨rfl, by decide, by decide, NewGasConcentrationRequest.encode, ?_⟩
  obtain ⟨cs', -, h⟩ := ReadGasConcentrationResponse_chunked
    [NewGasConcentrationRequest.encode] 0xFF 0x01 0x86 0x00 0x00 0x00 0x00 0x00 0x79 []
    (fuel + 2) (by decide) (by simp)
  refine ⟨_, ?_, h, ?_⟩
  · rcases w with ⟨calls, accepted, script⟩
    rcases script with _ | ⟨⟨n, e⟩, rest⟩ <;> rfl
  · dsimp only
    decide

/-- Claim C16: when a nine-byte frame decodes with a nil error, the frame obtained
by replacing the byte at any one of its nine positions by a different value decodes
with a `ChecksumError` (and a response that is not nil). -/
theorem single_byte_corruption_detected (cs : List (List Byte))
    (b0 b1 b2 b3 b4 b5 b6 b7 b8 : Byte) (i : Nat) (v : Byte) (rest : List Byte) (fuel : Nat)
    (hok : (ReadGasConcentrationResponse 2
      (chunked [[b0, b1, b2, b3, b4, b5, b6, b7, b8]])).map (fun res => res.err) = some none)
    (hi : i < 9) (hne : v ≠ [b0, b1, b2, b3, b4, b5, b6, b7, b8].getD i 0)
    (hcs : cs.flatten = [b0, b1, b2, b3, b4, b5, b6, b7, b8].set i v ++ rest)
    (hfuel : cs.length < fuel) :
    ∃ res resp msg, ReadGasConcentrationResponse fuel (chunked cs) = some res ∧
      res.resp = some resp ∧ res.err = some (Error.ChecksumError msg) := by
  have hsum : 0xFF - (b0.val + b1.val + b2.val + b3.val + b4.val + b5.val + b6.val
      + b7.val) % 256 = b8.val := by
    obtain ⟨cs0, -, h0⟩ := ReadGasConcentrationResponse_chunked
      [[b0, b1, b2, b3, b4, b5, b6, b7, b8]] b0 b1 b2 b3 b4 b5 b6 b7 b8 [] 2 (by simp)
      (by simp)
    rw [h0] at hok
    by_contra hc
    simp [hc] at hok
  have hv := v.isLt
  have h0 := b0.isLt
  have h1 := b1.isLt
  have h2 := b2.isLt
  have h3 := b3.isLt
  have h4 := b4.isLt
  have h5 := b5.isLt
  have h6 := b6.isLt
  have h7 := b7.isLt
  have h8 := b8.isLt
  interval_cases i <;>
    simp only [List.set, List.getD_cons_zero, List.getD_cons_succ] at hcs hne <;>
    have hne' := Fin.val_ne_of_ne hne <;>
    obtain ⟨cs', -, h⟩ :=
      ReadGasConcentrationResponse_chunked cs _ _ _ _ _ _ _ _ _ rest fuel hcs hfuel <;>
    exact ⟨_, _, _, h, rfl, if_pos (by omega)⟩

theorem single_byte_corruption_detected_witness :
    ∃ res resp msg, ReadGasConcentrationResponse 3
        (chunked [[0xFF, 0x86, 0x03, 0xE8], [0x23, 0x00, 0x01, 0x00, 0x6C]]) = some res ∧
      res.resp = some resp ∧ res.err = some (Error.ChecksumError msg) :=
  single_byte_corruption_detected [[0xFF, 0x86, 0x03, 0xE8], [0x23, 0x00, 0x01, 0x00, 0x6C]]
    0xFF 0x86 0x03 0xE8 0x23 0x00 0x00 0x00 0x6C 6 0x01 [] 3
    (by decide) (by decide) (by decide) (by decide) (by decide)

/-- Claim C17: when the source delivers the nine bytes `b0 .. b8`,
`ReadGasConcentrationResponse` returns a nil error exactly when the sum of all nine
bytes is congruent to 255 modulo 256. -/
theorem error_nil_iff_total_sum (cs : List (List Byte)) (b0 b1 b2 b3 b4 b5 b6 b7 b8 : Byte)
    (rest : List Byte) (fuel : Nat)
    (hcs : cs.flatten = [b0, b1, b2, b3, b4, b5, b6, b7, b8] ++ rest)
    (hfuel : cs.length < fuel) :
    ∃ res, ReadGasConcentrationResponse fuel (chunked cs) = some res ∧
      (res.err = none ↔
        (b0.val + b1.val + b2.val + b3.val + b4.val + b5.val + b6.val + b7.val + b8.val)
          % 256 = 255) := by
  obtain ⟨cs', -, h⟩ :=
    ReadGasConcentrationResponse_chunked cs b0 b1 b2 b3 b4 b5 b6 b7 b8 rest fuel hcs hfuel
  refine ⟨_, h, ?_⟩
  have h8 := b8.isLt
  by_cases hsum : 0xFF - (b0.val + b1.val + b2.val + b3.val + b4.val + b5.val + b6.val
      + b7.val) % 256 = b8.val
  · have : (b0.val + b1.val + b2.val + b3.val + b4.val + b5.val + b6.val + b7.val + b8.val)
        % 256 = 255 := by omega
    simp [hsum, this]
  · have : ¬ (b0.val + b1.val + b2.val + b3.val + b4.val + b5.val + b6.val + b7.val + b8.val)
        % 256 = 255 := by omega
    simp [hsum, this]

theorem error_nil_iff_total_sum_witness :
    ∃ res, ReadGasConcentrationResponse 2
        (chunked [[0xFF, 0x86, 0x03, 0xE8, 0x23, 0x00, 0x00, 0x00, 0x6C]]) = some res ∧
      (res.err = none ↔
        ((0xFF : Byte).val + (0x86 : Byte).val + (0x03 : Byte).val + (0xE8 : Byte).val
          + (0x23 : Byte).val + (0x00 : Byte).val + (0x00 : Byte).val + (0x00 : Byte).val
          + (0x6C : Byte).val) % 256 = 255) :=
  error_nil_iff_total_sum [[0xFF, 0x86, 0x03, 0xE8, 0x23, 0x00, 0x00, 0x00, 0x6C]]
    0xFF 0x86 0x03 0xE8 0x23 0x00 0x00 0x00 0x6C [] 2 (by decide) (by decide)

/-- Claim C18, as amended: for every source whose answers keep to the `io.Reader`
contract (none reports more bytes than the buffer holds), when `io.ReadFull`
returns without error it has read exactly nine bytes, so the branch for too few
bytes is not taken: every result of `ReadGasConcentrationResponse` is the error of
`io.ReadFull` with a nil response, or a `ChecksumError` with a response, or a
response with a nil error. -/
theorem too_few_bytes_unreachable (fuel : Nat) (r : Reader)
    (hr : ∀ ev ∈ r, ev.overrun = false) :
    (∀ st, ReadFull fuel r (List.replicate 9 0) = some st → st.err = none → st.n = 9) ∧
    (∀ res, ReadGasConcentrationResponse fuel r = some res →
      (∃ st e, ReadFull fuel r (List.replicate 9 0) = some st ∧ st.err = some e ∧
        res.resp = none ∧ res.err = some e) ∨
      (∃ resp msg, res.resp = some resp ∧ res.err = some (Error.ChecksumError msg)) ∨
      (∃ resp, res.resp = some resp ∧ res.err = none)) := by
  have hnine : ∀ st, ReadFull fuel r (List.replicate 9 0) = some st → st.err = none →
      st.n = 9 := by
    intro st h herr
    have := ReadFull_nil_error fuel r (List.replicate 9 0) st hr h herr
    simpa using this
  refine ⟨hnine, ?_⟩
  intro res hres
  unfold ReadGasConcentrationResponse at hres
  dsimp only at hres
  cases hread : ReadFull fuel r (List.replicate 9 0) with
  | none =>
    rw [hread] at hres
    cases hres
  | some st =>
    rw [hread] at hres
    dsimp only at hres
    cases herr : st.err with
    | some e =>
      simp only [herr, Option.some.injEq] at hres
      subst hres
      exact Or.inl ⟨st, e, rfl, herr, rfl, rfl⟩
    | none =>
      have hn := hnine st hread herr
      simp only [herr, hn, ne_eq, not_true_eq_false, if_false] at hres
      by_cases hsum : checksum st.buf = (binaryRead st.buf).Checksum.val
      · simp only [hsum, not_true_eq_false, if_false, Option.some.injEq] at hres
        subst hres
        exact Or.inr (Or.inr ⟨_, rfl, rfl⟩)
      · simp only [hsum, not_false_eq_true, if_true, Option.some.injEq] at hres
        subst hres
        exact Or.inr (Or.inl ⟨_, _, rfl, rfl⟩)

theorem too_few_bytes_unreachable_witness :
    ((∀ st, ReadFull 3 (chunked [[0xFF, 0x86, 0x03], [0xE8, 0x23, 0x00, 0x00, 0x00, 0x6C]])
          (List.replicate 9 0) = some st → st.err = none → st.n = 9) ∧
      (∀ res, ReadGasConcentrationResponse 3
          (chunked [[0xFF, 0x86, 0x03], [0xE8, 0x23, 0x00, 0x00, 0x00, 0x6C]]) = some res →
        (∃ st e, ReadFull 3 (chunked [[0xFF, 0x86, 0x03], [0xE8, 0x23, 0x00, 0x00, 0x00, 0x6C]])
            (List.replicate 9 0) = some st ∧ st.err = some e ∧
          res.resp = none ∧ res.err = some e) ∨
        (∃ resp msg, res.resp = some resp ∧ res.err = some (Error.ChecksumError msg)) ∨
        (∃ resp, res.resp = some resp ∧ res.err = none))) ∧
    (ReadFull 3 (chunked [[0xFF, 0x86, 0x03], [0xE8, 0x23, 0x00, 0x00, 0x00, 0x6C]])
        (List.replicate 9 0)).map (fun st => (st.n, st.err)) = some (9, none) :=
  ⟨too_few_bytes_unreachable 3
      (chunked [[0xFF, 0x86, 0x03], [0xE8, 0x23, 0x00, 0x00, 0x00, 0x6C]]) (by decide),
    by decide⟩

/-- The source whose one `Read` reports twelve bytes for the nine-byte buffer:
`io.ReadFull` returns the count 12 and no error, and
`ReadGasConcentrationResponse` returns the error for too few bytes with a nil
response (claim C18 as first stated says it never does). -/
theorem too_few_bytes_reached :
    (ReadFull 1
        [{ data := [0xFF, 0x86, 0x03, 0xE8, 0x23, 0x00, 0x00, 0x00, 0x6C, 0x00, 0x00, 0x00],
           err := none, overrun := true }]
        (List.replicate 9 0)).map (fun st => (st.n, st.err)) = some (12, none) ∧
      ReadGasConcentrationResponse 1
        [{ data := [0xFF, 0x86, 0x03, 0xE8, 0x23, 0x00, 0x00, 0x00, 0x6C, 0x00, 0x00, 0x00],
           err := none, overrun := true }] =
        some { resp := none,
               err := some (Error.errorString "too few bytes read: want=9 got=12"),
               r := [] } := by
  decide

end Mhz19
